import Mathlib

/-!
Verification of the ENS resolve API route (src/pages/api/ens/resolve/[address].ts).

The handler is embedded shallowly. External capabilities are parameters:
the authoritative ethers provider and the shadow viem client are records of
oracle functions (each network call either rejects with an error message or
fulfills with a null-or-string value), and the pure viem library helpers
(ens normalize, EIP-55 getAddress) are function parameters of the
environment. The handler and its helper functions are translated directly
from the source; JavaScript truthiness of strings and the rejection
behaviour of async functions are made explicit.
-/

namespace EnsIdeas

/-- Outcome of an awaited external call: rejection with an error message,
or fulfillment with either null or a string value. -/
abbrev Outcome := Except String (Option String)

deriving instance DecidableEq for Except

/-- Authoritative client (ethers StaticJsonRpcProvider): reverse lookup,
forward resolution and avatar lookup, each a network call whose outcome is
determined by the run. -/
structure EthersProvider where
  lookupAddress : String → Outcome
  resolveName : String → Outcome
  getAvatar : String → Outcome

/-- Shadow client (viem publicClient): the three corresponding calls. -/
structure ViemClient where
  getEnsName : String → Outcome
  getEnsAddress : String → Outcome
  getEnsAvatar : String → Outcome

/-- The ambient environment of one run of the handler: the two RPC clients
plus the pure viem library helpers used by the route. normalize is the
fallible ENSIP-15 name normalization (throws on invalid names, modelled as
Except); getAddress is EIP-55 checksumming, total on the syntactically
valid addresses the handler guards it with. -/
structure Env where
  provider : EthersProvider
  publicClient : ViemClient
  normalize : String → Except String String
  getAddress : String → String

/-- Embedding of firstParam: Array.isArray(param) ? param[0] : param.
The query value may be absent (undefined), a string, or an array of
strings; indexing an empty array yields undefined, hence Option. -/
def firstParam (param : Option (String ⊕ List String)) : Option String :=
  match param with
  | none => none
  | some (.inl s) => some s
  | some (.inr l) => l.head?

/-- Model of JavaScript String.prototype.toLowerCase on the basic-latin
fragment relevant to addresses and ENS labels. -/
def toLowerCase (s : String) : String :=
  (s.toList.map Char.toLower).asString

/-- Hexadecimal digit, either case (the [0-9A-F] class with the i flag). -/
def isHexDigit (c : Char) : Bool :=
  c.isDigit || ('a' ≤ c && c ≤ 'f') || ('A' ≤ c && c ≤ 'F')

/-- Model of viem isAddress as the handler calls it (on an already
lower-cased string): a 0x prefix followed by exactly 40 hex digits.
Checksum validation is vacuous on lower-cased input. -/
def isAddress (s : String) : Bool :=
  match s.toList with
  | '0' :: 'x' :: rest => rest.length == 40 && rest.all isHexDigit
  | _ => false

/-- Embedding of the displayName fallback computation, the anchored
case-insensitive regex replacement on the checksummed address that keeps
group 1 (0x plus the first three hex digits) and group 2 (the last four
hex digits) around an ellipsis: when the whole string is 0x followed by at
least 8 hex digits the middle is elided, otherwise the string is returned
unchanged. -/
def elideAddress (address : String) : String :=
  match address.toList with
  | '0' :: 'x' :: rest =>
    if 8 ≤ rest.length ∧ rest.all isHexDigit then
      ('0' :: 'x' :: rest.take 3).asString ++ "…" ++ (rest.drop (rest.length - 4)).asString
    else address
  | _ => address

/-- Cut a string at the first occurrence of a character (exclusive). -/
def beforeChar (s : String) (c : Char) : String :=
  (s.toList.takeWhile (fun a => a != c)).asString

/-- Keep a path up to and including its last slash (the URL merge step of
relative reference resolution). -/
def dirname (s : String) : String :=
  ((s.toList.reverse.dropWhile (fun a => a != '/')).reverse).asString

/-- Characters allowed after the first letter of a WHATWG URL scheme. -/
def schemeChar (c : Char) : Bool :=
  c.isAlpha || c.isDigit || c == '+' || c == '-' || c == '.'

/-- WHATWG scheme detection: when the string starts with a letter followed
by scheme characters and a colon, return the scheme and the remainder
after the colon; otherwise none (the string is a relative reference). -/
def parseScheme (s : String) : Option (String × String) :=
  match s.toList with
  | [] => none
  | c :: rest =>
    if c.isAlpha then
      match rest.dropWhile schemeChar with
      | ':' :: tail => some ((c :: rest.takeWhile schemeChar).asString, tail.asString)
      | _ => none
    else none

/-- Embedding of the resolve helper:
new URL(to, new URL(from, resolve scheme)), returning
pathname ++ search ++ hash when the resulting protocol is the resolve
scheme and resolvedUrl.toString() otherwise. fromUrl is modelled as the
path-form request target the framework supplies (path-absolute), so the
base URL always carries the resolve scheme and the protocol of the result
is decided by whether to itself starts with a scheme:
- to with a scheme other than resolve parses as an absolute URL of that
  scheme, and its serialization is the (lower-cased) scheme, the colon and
  the remainder (special schemes such as http, whose authority is
  renormalized, and dot-segment normalization are outside the scope of
  this model — the handler only ever passes a lower-cased path segment);
- to with the resolve scheme itself passes the protocol check: its
  pathname, search and hash reassemble the remainder, minus the authority
  when the remainder starts with two slashes;
- to without a scheme is a relative reference: WHATWG resolution against
  the base replaces the last segment of the path of from and clears its
  query and fragment, giving the directory of the path of from followed
  by to. -/
def resolve (fromUrl : String) (toUrl : String) : String :=
  match parseScheme toUrl with
  | some (scheme, remainder) =>
    if toLowerCase scheme = "resolve" then
      if remainder.toList.take 2 = ['/', '/'] then
        ((remainder.toList.drop 2).dropWhile
          (fun c => c != '/' && c != '?' && c != '#')).asString
      else remainder
    else
      toLowerCase scheme ++ ":" ++ remainder
  | none =>
    dirname (beforeChar (beforeChar fromUrl '#') '?') ++ toUrl

/-- The JSON response shape of the route. error is an optional field. -/
structure ResponseData where
  address : Option String
  name : Option String
  displayName : String
  avatar : Option String
  error : Option String := none
deriving DecidableEq, Repr

/-- Embedding of getEnsName: the returned value is the outcome of the
authoritative ethers lookupAddress call; the viem getEnsName call is
issued only for the fire-and-forget comparison, which logs a warning when
the two settled results differ. -/
def getEnsName (env : Env) (address : String) : Outcome × List String :=
  let ethersResult := env.provider.lookupAddress address
  let viemResult := env.publicClient.getEnsName address
  (ethersResult,
    if ethersResult = viemResult then [] else ["Inconsistent results for getEnsName"])

/-- Embedding of getEnsAddress. The shadow call viem getEnsAddress is
given normalize(name) as argument; normalize is evaluated synchronously
inside the async function body, so when it throws the async function
rejects with that error and the authoritative promise is never returned. -/
def getEnsAddress (env : Env) (name : String) : Outcome × List String :=
  let ethersPromise := env.provider.resolveName name
  match env.normalize name with
  | .error e => (.error e, [])
  | .ok normalized =>
    let viemResult := env.publicClient.getEnsAddress normalized
    (ethersPromise,
      if ethersPromise = viemResult then [] else ["Inconsistent results for getEnsAddress"])

/-- Embedding of getEnsAvatar, with the same synchronous normalize hazard
as getEnsAddress. -/
def getEnsAvatar (env : Env) (name : String) : Outcome × List String :=
  let ethersPromise := env.provider.getAvatar name
  match env.normalize name with
  | .error e => (.error e, [])
  | .ok normalized =>
    let viemResult := env.publicClient.getEnsAvatar normalized
    (ethersPromise,
      if ethersPromise = viemResult then [] else ["Inconsistent results for getEnsAvatar"])

/-- Embedding of resolveAddress. displayName starts as the elided
checksummed address and is reassigned to the reverse name when one is
found (JavaScript truthiness: the empty string does not count); the catch
branch returns whatever displayName holds at the time of the failure. -/
def resolveAddress (env : Env) (lowercaseAddress : String) : ResponseData × List String :=
  let address := env.getAddress lowercaseAddress
  let displayName := elideAddress address
  let nr := getEnsName env address
  match nr.1 with
  | .error e =>
    (⟨some address, none, displayName, none, some e⟩, nr.2)
  | .ok none =>
    (⟨some address, none, displayName, none, none⟩, nr.2)
  | .ok (some n) =>
    if n = "" then
      (⟨some address, some n, displayName, none, none⟩, nr.2)
    else
      let ar := getEnsAvatar env n
      match ar.1 with
      | .error e => (⟨some address, none, n, none, some e⟩, nr.2 ++ ar.2)
      | .ok av => (⟨some address, some n, n, av, none⟩, nr.2 ++ ar.2)

/-- Embedding of resolveName: both lookups are issued (Promise.all); a
rejection of either is caught and turned into the error result with a
null address and avatar. -/
def resolveName (env : Env) (name : String) : ResponseData × List String :=
  let displayName := name
  let ar := getEnsAddress env name
  let vr := getEnsAvatar env name
  match ar.1 with
  | .error e => (⟨none, some name, displayName, none, some e⟩, ar.2 ++ vr.2)
  | .ok address =>
    match vr.1 with
    | .error e => (⟨none, some name, displayName, none, some e⟩, ar.2 ++ vr.2)
    | .ok avatar => (⟨address, some name, displayName, avatar, none⟩, ar.2 ++ vr.2)

/-- A runtime exception escaping the handler (surfaced by the framework as
a generic error page, not as the structured JSON of the route). -/
inductive JsError where
  | typeError (message : String)
deriving DecidableEq, Repr

/-- The request data the handler reads: the routed path parameter and the
raw request URL. -/
structure NextApiRequest where
  queryAddress : Option (String ⊕ List String)
  url : String
deriving DecidableEq, Repr

/-- The response the handler produces: a redirect or a JSON body with a
status and response headers. -/
inductive Response where
  | redirect (status : Nat) (location : String)
  | json (status : Nat) (headers : List (String × String)) (body : ResponseData)
deriving DecidableEq, Repr

/-- JavaScript truthiness of the optional error field: present and not the
empty string. -/
def errorTruthy (d : ResponseData) : Bool :=
  match d.error with
  | none => false
  | some m => m != ""

/-- The cache header value s-maxage=86400, stale-while-revalidate built
from the 60 * 60 * 24 template. -/
def cdnCacheControl : String :=
  "s-maxage=" ++ toString (60 * 60 * 24) ++ ", stale-while-revalidate"

/-- Embedding of the default-export handler. Accessing toLowerCase on an
absent parameter throws a TypeError that escapes the handler; every other
path returns a response. The second component collects the server-side
warning log lines of the run. -/
def handler (env : Env) (req : NextApiRequest) : Except JsError (Response × List String) :=
  match firstParam req.queryAddress with
  | none => .error (.typeError "Cannot read properties of undefined (reading toLowerCase)")
  | some inputAddress =>
    let lowercaseAddress := toLowerCase inputAddress
    if inputAddress ≠ lowercaseAddress then
      .ok (.redirect 307 (resolve req.url lowercaseAddress), [])
    else
      let r := if isAddress lowercaseAddress then resolveAddress env lowercaseAddress
               else resolveName env lowercaseAddress
      if errorTruthy r.1 then
        .ok (.json 500 [] r.1, r.2)
      else
        .ok (.json 200 [("CDN-Cache-Control", cdnCacheControl)] r.1, r.2)

/-- Split a character list into its dot-separated labels. -/
def splitDots : List Char → List (List Char)
  | [] => [[]]
  | '.' :: rest => [] :: splitDots rest
  | c :: rest =>
    match splitDots rest with
    | [] => [[c]]
    | hd :: tl => (c :: hd) :: tl

/-- Partial model of viem ens normalize (ENSIP-15): the empty name
normalizes to itself, a name containing an empty label is rejected, and an
already-normalized name is returned unchanged. Only used to instantiate
the normalize parameter of the environment at concrete inputs on which it
agrees with the library. -/
def ensNormalize (name : String) : Except String String :=
  if name = "" then .ok ""
  else if (splitDots name.toList).any (fun l => l.isEmpty) then
    .error "Invalid ENS name: empty label"
  else .ok name

/-- A shadow client all of whose calls fulfill with null. -/
def viemNull : ViemClient :=
  ⟨fun _ => .ok none, fun _ => .ok none, fun _ => .ok none⟩

/-- An authoritative provider all of whose calls fulfill with null. -/
def ethersNull : EthersProvider :=
  ⟨fun _ => .ok none, fun _ => .ok none, fun _ => .ok none⟩

/-- Concrete instantiation of the checksumming parameter for witnesses:
the identity (an already lower-case address is a fixed point of no real
checksum, but the theorems quantify over the checksum function, so any
concrete pure function may instantiate it). -/
def idGetAddress : String → String := fun s => s

/-- A fully null environment for witnesses and counterexamples. -/
def envNull : Env := ⟨ethersNull, viemNull, ensNormalize, idGetAddress⟩

/-- The lower-case sample address used by witnesses. -/
def sampleAddr : String := "0xd8da6bf26964af9d7eed9e03e53415d37aa96045"

/-- Does the handler outcome answer with a JSON body (as opposed to a
redirect or an escaped exception)? -/
def isJsonResult (r : Except JsError (Response × List String)) : Bool :=
  match r with
  | .ok (.json _ _ _, _) => true
  | _ => false

/-- An authoritative provider whose forward resolution always succeeds
with the sample address. -/
def ethForward : EthersProvider :=
  ⟨fun _ => .ok none, fun _ => .ok (some sampleAddr), fun _ => .ok none⟩

/-- An authoritative provider whose forward resolution rejects. -/
def ethBoom : EthersProvider :=
  ⟨fun _ => .ok none, fun _ => .error "boom", fun _ => .ok none⟩

/-- An environment whose forward resolution rejects. -/
def envBoom : Env := ⟨ethBoom, viemNull, ensNormalize, idGetAddress⟩

/-- An authoritative provider whose reverse lookup fulfills with a name
and whose avatar lookup then rejects with an empty message. -/
def ethAvatarFail : EthersProvider :=
  ⟨fun _ => .ok (some "vitalik.eth"), fun _ => .ok none, fun _ => .error ""⟩

/-- An environment whose avatar lookup rejects after a reverse name was
found. -/
def envAvatarFail : Env := ⟨ethAvatarFail, viemNull, ensNormalize, idGetAddress⟩

/-- An authoritative provider whose avatar lookup fulfills with a value. -/
def ethAvatarSome : EthersProvider :=
  ⟨fun _ => .ok none, fun _ => .ok none, fun _ => .ok (some "ipfs://avatar")⟩

/-- An authoritative provider whose reverse lookup fulfills with a name
and whose avatar lookup fulfills with null. -/
def ethReverseName : EthersProvider :=
  ⟨fun _ => .ok (some "vitalik.eth"), fun _ => .ok none, fun _ => .ok none⟩

/-- An authoritative provider whose reverse lookup rejects with an empty
message. -/
def ethEmptyErr : EthersProvider :=
  ⟨fun _ => .error "", fun _ => .ok none, fun _ => .ok none⟩

/-- An environment whose reverse lookup rejects with an empty message. -/
def envEmptyErr : Env := ⟨ethEmptyErr, viemNull, ensNormalize, idGetAddress⟩

/-! Auxiliary lemmas -/

/-- Characters built from valid code points keep their code point. -/
theorem char_toNat_ofNat_of_valid (n : Nat) (h : n.isValidChar) :
    (Char.ofNat n).toNat = n := by
  simp only [Char.ofNat, dif_pos h]
  rfl

/-- Core basic-latin lower-casing of a character is idempotent. -/
theorem toLower_idem (c : Char) : Char.toLower (Char.toLower c) = Char.toLower c := by
  unfold Char.toLower
  by_cases h : c.toNat ≥ 65 ∧ c.toNat ≤ 90
  · rw [if_pos h]
    have hv : (Char.ofNat (c.toNat + 32)).toNat = c.toNat + 32 :=
      char_toNat_ofNat_of_valid _ (Or.inl (by omega))
    rw [if_neg (by rw [hv]; omega)]
  · rw [if_neg h, if_neg h]

/-- The modelled toLowerCase is idempotent. -/
theorem toLowerCase_idem (s : String) : toLowerCase (toLowerCase s) = toLowerCase s := by
  unfold toLowerCase
  rw [List.toList_asString, List.map_map]
  congr 1
  exact List.map_congr_left fun c _ => toLower_idem c

/-- String append commutes with toList. -/
theorem toList_append (a b : String) : (a ++ b).toList = a.toList ++ b.toList := rfl

/-- List append commutes with asString. -/
theorem asString_append (l1 l2 : List Char) :
    (l1 ++ l2).asString = l1.asString ++ l2.asString := rfl

/-- The value component of getEnsName is the authoritative outcome. -/
theorem getEnsName_fst (env : Env) (a : String) :
    (getEnsName env a).1 = env.provider.lookupAddress a := rfl

/-- The value component of getEnsAddress: the normalize error when the
shadow-argument normalization throws, the authoritative outcome
otherwise. -/
theorem getEnsAddress_fst (env : Env) (s : String) :
    (getEnsAddress env s).1 =
      match env.normalize s with
      | .error e => .error e
      | .ok _ => env.provider.resolveName s := by
  cases h : env.normalize s <;> simp [getEnsAddress, h]

/-- The value component of getEnsAvatar: the normalize error when the
shadow-argument normalization throws, the authoritative outcome
otherwise. -/
theorem getEnsAvatar_fst (env : Env) (s : String) :
    (getEnsAvatar env s).1 =
      match env.normalize s with
      | .error e => .error e
      | .ok _ => env.provider.getAvatar s := by
  cases h : env.normalize s <;> simp [getEnsAvatar, h]

/-- Characterization of the data component of resolveAddress in terms of
the authoritative outcomes alone. -/
theorem resolveAddress_fst (env : Env) (a : String) :
    (resolveAddress env a).1 =
      (match env.provider.lookupAddress (env.getAddress a) with
       | .error e =>
         ⟨some (env.getAddress a), none, elideAddress (env.getAddress a), none, some e⟩
       | .ok none =>
         ⟨some (env.getAddress a), none, elideAddress (env.getAddress a), none, none⟩
       | .ok (some n) =>
         if n = "" then
           ⟨some (env.getAddress a), some n, elideAddress (env.getAddress a), none, none⟩
         else
           match (getEnsAvatar env n).1 with
           | .error e => ⟨some (env.getAddress a), none, n, none, some e⟩
           | .ok av => ⟨some (env.getAddress a), some n, n, av, none⟩ : ResponseData) := by
  simp only [resolveAddress, getEnsName_fst]
  cases h : env.provider.lookupAddress (env.getAddress a) with
  | error e => simp
  | ok o =>
    cases o with
    | none => simp
    | some n =>
      by_cases hn : n = ""
      · simp [hn]
      · simp only [hn, if_false]
        cases h2 : (getEnsAvatar env n).1 <;> simp

/-- Characterization of the data component of resolveName in terms of the
value components of the two lookups. -/
theorem resolveName_fst (env : Env) (s : String) :
    (resolveName env s).1 =
      (match (getEnsAddress env s).1 with
       | .error e => ⟨none, some s, s, none, some e⟩
       | .ok address =>
         match (getEnsAvatar env s).1 with
         | .error e => ⟨none, some s, s, none, some e⟩
         | .ok avatar => ⟨address, some s, s, avatar, none⟩ : ResponseData) := by
  simp only [resolveName]
  cases h : (getEnsAddress env s).1 with
  | error e => simp
  | ok a => cases h2 : (getEnsAvatar env s).1 <;> simp

/-- The response component of the handler (logs dropped), in terms of the
data component of the dispatched resolver. -/
theorem handler_map_fst (env : Env) (req : NextApiRequest) :
    (handler env req).map Prod.fst =
      match firstParam req.queryAddress with
      | none => .error (.typeError "Cannot read properties of undefined (reading toLowerCase)")
      | some inputAddress =>
        if inputAddress ≠ toLowerCase inputAddress then
          .ok (.redirect 307 (resolve req.url (toLowerCase inputAddress)))
        else
          (fun d => .ok (if errorTruthy d then .json 500 [] d
               else .json 200 [("CDN-Cache-Control", cdnCacheControl)] d))
          ((if isAddress (toLowerCase inputAddress) then resolveAddress env (toLowerCase inputAddress)
            else resolveName env (toLowerCase inputAddress)).1) := by
  unfold handler
  cases firstParam req.queryAddress with
  | none => rfl
  | some i =>
    simp only
    split
    · rfl
    · split <;> split <;> rfl

/-! Claim theorems -/

/-- C6: for every syntactically valid, already lower-case address input,
the result of resolveAddress carries the checksummed form of the input in
its address field unconditionally — in the success branch, the null-name
branch and every error branch alike. -/
theorem c6_address_checksummed_unconditionally (env : Env) (a : String)
    (h1 : isAddress a = true) (h2 : toLowerCase a = a) :
    (resolveAddress env a).1.address = some (env.getAddress a) := by
  simp only [resolveAddress]
  split
  · rfl
  · rfl
  · split
    · rfl
    · split
      · rfl
      · rfl

/-- Witness for C6 at a concrete lower-case address and environment. -/
theorem c6_address_checksummed_unconditionally_witness :
    (resolveAddress envNull sampleAddr).1.address = some (envNull.getAddress sampleAddr) :=
  c6_address_checksummed_unconditionally envNull sampleAddr (by decide) (by decide)

/-- C10: when the path segment is already its own lower-cased form the
handler never redirects and always answers with a JSON body, and the
segment of any redirect target (the lower-cased input) is itself
canonical, so requesting the redirect target is never redirected again. -/
theorem c10_canonicalization_idempotent (env : Env) (u s : String) :
    (toLowerCase s = s → isJsonResult (handler env ⟨some (.inl s), u⟩) = true)
    ∧ isJsonResult (handler env ⟨some (.inl (toLowerCase s)), u⟩) = true := by
  have key : ∀ t : String, toLowerCase t = t →
      isJsonResult (handler env ⟨some (.inl t), u⟩) = true := by
    intro t ht
    unfold handler firstParam
    simp only
    rw [if_neg (by simp [ht])]
    split <;> split <;> rfl
  exact ⟨key s, key (toLowerCase s) (toLowerCase_idem s)⟩

/-- Witness for C10 at a concrete canonical segment. -/
theorem c10_canonicalization_idempotent_witness :
    isJsonResult (handler envNull ⟨some (.inl sampleAddr), "/api/ens/resolve/" ++ sampleAddr⟩) = true :=
  (c10_canonicalization_idempotent envNull ("/api/ens/resolve/" ++ sampleAddr) sampleAddr).1 (by decide)

/-- C8 counterexample: a request whose path parameter is absent — or an
empty array — makes the handler throw a TypeError (reading toLowerCase of
undefined) before any resolver runs, so an exception escapes to the
framework instead of a redirect or structured JSON. -/
theorem c8_counterexample :
    handler envNull ⟨none, "/api/ens/resolve/"⟩
      = .error (.typeError "Cannot read properties of undefined (reading toLowerCase)")
    ∧ handler envNull ⟨some (.inr []), "/api/ens/resolve/"⟩
      = .error (.typeError "Cannot read properties of undefined (reading toLowerCase)") :=
  ⟨rfl, rfl⟩

/-- C8 amended: for every request whose path parameter is present (a
string or a nonempty array — which the routing layer guarantees for this
route), all failures are caught inside the resolver functions: the handler
always returns a redirect or a structured JSON result and no exception
escapes. -/
theorem c8_no_escape_on_present_param (env : Env) (u s : String) (t : List String) :
    (∃ r, handler env ⟨some (.inl s), u⟩ = .ok r)
    ∧ (∃ r, handler env ⟨some (.inr (s :: t)), u⟩ = .ok r) := by
  have key : ∀ v, firstParam v = some s → ∃ r, handler env ⟨v, u⟩ = .ok r := by
    intro v hv
    unfold handler
    rw [hv]
    simp only
    split
    · exact ⟨_, rfl⟩
    · split <;> split <;> exact ⟨_, rfl⟩
  exact ⟨key _ rfl, key _ rfl⟩

/-- C9 counterexample: two environments with the same authoritative
provider and the same shadow RPC client, differing only in the viem-side
name normalization evaluated synchronously to build the shadow call
argument, give different responses to the same request: on the name with
an empty label the normalization throws, the async lookup rejects, and the
handler answers HTTP 500 although the authoritative forward call
fulfilled — the response is not determined solely by the authoritative
call, and the shadow path can affect the returned value. -/
theorem c9_counterexample :
    (handler ⟨ethForward, viemNull, fun n => .ok n, idGetAddress⟩
        ⟨some (.inl "ab..cd"), "/api/ens/resolve/ab..cd"⟩).map Prod.fst
      ≠ (handler ⟨ethForward, viemNull, ensNormalize, idGetAddress⟩
        ⟨some (.inl "ab..cd"), "/api/ens/resolve/ab..cd"⟩).map Prod.fst
    ∧ ethForward.resolveName "ab..cd" = .ok (some sampleAddr)
    ∧ (handler ⟨ethForward, viemNull, ensNormalize, idGetAddress⟩
        ⟨some (.inl "ab..cd"), "/api/ens/resolve/ab..cd"⟩).map Prod.fst
      = .ok (.json 500 [] ⟨none, some "ab..cd", "ab..cd", none,
          some "Invalid ENS name: empty label"⟩) := by
  refine ⟨?_, rfl, ?_⟩ <;> decide

/-- C9 amended: holding the authoritative provider and the pure library
helpers (normalize, getAddress) fixed, the response — status, headers,
body or redirect — is independent of the shadow viem client outcomes; two
runs differing only in the shadow RPC results or rejections produce the
same response (only the server-side warning logs may differ). -/
theorem c9_shadow_rpc_never_affects_response
    (eth : EthersProvider) (v1 v2 : ViemClient)
    (norm : String → Except String String) (ga : String → String)
    (req : NextApiRequest) :
    (handler ⟨eth, v1, norm, ga⟩ req).map Prod.fst
      = (handler ⟨eth, v2, norm, ga⟩ req).map Prod.fst := by
  rw [handler_map_fst, handler_map_fst]
  cases firstParam req.queryAddress with
  | none => rfl
  | some i =>
    simp only
    split
    · rfl
    · have hr : (if isAddress (toLowerCase i)
            then resolveAddress ⟨eth, v1, norm, ga⟩ (toLowerCase i)
            else resolveName ⟨eth, v1, norm, ga⟩ (toLowerCase i)).1
          = (if isAddress (toLowerCase i)
            then resolveAddress ⟨eth, v2, norm, ga⟩ (toLowerCase i)
            else resolveName ⟨eth, v2, norm, ga⟩ (toLowerCase i)).1 := by
        by_cases ha : isAddress (toLowerCase i) = true
        · rw [if_pos ha, if_pos ha]
          simp only [resolveAddress_fst, getEnsAvatar_fst]
        · rw [if_neg ha, if_neg ha]
          simp only [resolveName_fst, getEnsAvatar_fst, getEnsAddress_fst]
      rw [hr]

/-- C2 counterexample: for the non-address input vitalik.eth, when the
forward lookup rejects the result has avatar null — the avatar is neither
eagerly computed nor non-null independent of forward-lookup success. -/
theorem c2_counterexample :
    (resolveName envBoom "vitalik.eth").1
      = ⟨none, some "vitalik.eth", "vitalik.eth", none, some "boom"⟩
    ∧ (resolveName envBoom "vitalik.eth").1.avatar = none := by decide

/-- C2 amended: for every non-address (name-path) input, when the combined
lookup rejects, the result has address null, name and displayName equal to
the input, avatar null (the avatar is the result of the avatar lookup, not
an eagerly computed local value), and the error field carrying the failure
message (possibly empty). -/
theorem c2_failure_shape (env : Env) (s m : String)
    (h : (resolveName env s).1.error = some m) :
    (resolveName env s).1.address = none
    ∧ (resolveName env s).1.name = some s
    ∧ (resolveName env s).1.displayName = s
    ∧ (resolveName env s).1.avatar = none := by
  rcases h1 : (getEnsAddress env s).1 with e | a
  · rw [resolveName_fst]; simp [h1]
  · rcases h2 : (getEnsAvatar env s).1 with e2 | av
    · rw [resolveName_fst]; simp [h1, h2]
    · rw [resolveName_fst] at h; simp [h1, h2] at h

/-- Witness for C2 amended at a concrete failing environment. -/
theorem c2_failure_shape_witness :
    (resolveName envBoom "vitalik.eth").1.address = none
    ∧ (resolveName envBoom "vitalik.eth").1.name = some "vitalik.eth"
    ∧ (resolveName envBoom "vitalik.eth").1.displayName = "vitalik.eth"
    ∧ (resolveName envBoom "vitalik.eth").1.avatar = none :=
  c2_failure_shape envBoom "vitalik.eth" "boom" (by decide)

/-- C3 counterexample: for a valid address, when the reverse lookup
fulfills with vitalik.eth and the avatar lookup then rejects, the error
result keeps displayName = vitalik.eth — not the elided fallback form of
the checksummed address — and the error string is exactly the thrown
message, which may be empty rather than non-empty. -/
theorem c3_counterexample :
    (resolveAddress envAvatarFail sampleAddr).1
      = ⟨some sampleAddr, none, "vitalik.eth", none, some ""⟩
    ∧ "vitalik.eth" ≠ elideAddress (envAvatarFail.getAddress sampleAddr) := by decide

/-- C3 amended: on any failure the address resolver returns name null,
avatar null and the failure message as the error string (possibly empty);
displayName equals the elided fallback form of the checksummed address
unless the reverse lookup had already fulfilled with a nonempty name, in
which case displayName is that name. -/
theorem c3_failure_shape (env : Env) (a m : String)
    (h : (resolveAddress env a).1.error = some m) :
    (resolveAddress env a).1.name = none
    ∧ (resolveAddress env a).1.avatar = none
    ∧ ((resolveAddress env a).1.displayName = elideAddress (env.getAddress a)
       ∨ ∃ n, n ≠ "" ∧ env.provider.lookupAddress (env.getAddress a) = .ok (some n)
           ∧ (resolveAddress env a).1.displayName = n) := by
  rcases h1 : env.provider.lookupAddress (env.getAddress a) with e | o
  · rw [resolveAddress_fst]; simp [h1]
  · rcases o with _ | n
    · rw [resolveAddress_fst] at h; simp [h1] at h
    · by_cases hn : n = ""
      · rw [resolveAddress_fst] at h; simp [h1, hn] at h
      · rcases h2 : (getEnsAvatar env n).1 with e2 | av
        · refine ⟨?_, ?_, .inr ⟨n, hn, rfl, ?_⟩⟩ <;>
            (rw [resolveAddress_fst]; simp [h1, hn, h2])
        · rw [resolveAddress_fst] at h
          simp [h1, hn, h2] at h

/-- Witness for C3 amended at a concrete failing environment. -/
theorem c3_failure_shape_witness :
    (resolveAddress envAvatarFail sampleAddr).1.name = none
    ∧ (resolveAddress envAvatarFail sampleAddr).1.avatar = none
    ∧ ((resolveAddress envAvatarFail sampleAddr).1.displayName
        = elideAddress (envAvatarFail.getAddress sampleAddr)
       ∨ ∃ n, n ≠ ""
           ∧ envAvatarFail.provider.lookupAddress (envAvatarFail.getAddress sampleAddr)
             = .ok (some n)
           ∧ (resolveAddress envAvatarFail sampleAddr).1.displayName = n) :=
  c3_failure_shape envAvatarFail sampleAddr "" (by decide)

/-- C4 counterexample: with the same input name, the avatar field follows
the outcome of the external getAvatar network call — two environments
differing only in that call yield different avatars — so the avatar is not
a pure, local, network-free computation on the name, and no metadata-URL
template value appears. -/
theorem c4_counterexample :
    (resolveName ⟨ethAvatarSome, viemNull, ensNormalize, idGetAddress⟩ "vitalik.eth").1.avatar
      = some "ipfs://avatar"
    ∧ (resolveName ⟨ethersNull, viemNull, ensNormalize, idGetAddress⟩ "vitalik.eth").1.avatar
      = none := by decide

/-- C4 amended: the avatar value is the fulfilled value of the
authoritative getAvatar network call on the name (null when the record is
null), not a locally constructed metadata URI: whenever normalization and
both authoritative calls fulfill, the avatar field equals the getAvatar
value. -/
theorem c4_avatar_from_network (env : Env) (s nn : String) (addr av : Option String)
    (hn : env.normalize s = .ok nn)
    (ha : env.provider.resolveName s = .ok addr)
    (hv : env.provider.getAvatar s = .ok av) :
    (resolveName env s).1.avatar = av := by
  rw [resolveName_fst]
  rw [getEnsAddress_fst, getEnsAvatar_fst]
  simp [hn, ha, hv]

/-- Witness for C4 amended at a concrete environment. -/
theorem c4_avatar_from_network_witness :
    (resolveName ⟨ethAvatarSome, viemNull, ensNormalize, idGetAddress⟩ "vitalik.eth").1.avatar
      = some "ipfs://avatar" :=
  c4_avatar_from_network ⟨ethAvatarSome, viemNull, ensNormalize, idGetAddress⟩
    "vitalik.eth" "vitalik.eth" none (some "ipfs://avatar")
    (by decide) (by decide) (by decide)

/-- C5 counterexample: for a valid address whose reverse lookup fulfills
with vitalik.eth but whose avatar lookup fulfills with null, the result
has displayName vitalik.eth as claimed but avatar null — not a URI
containing the percent-encoded normalized form of the name. -/
theorem c5_counterexample :
    ethReverseName.lookupAddress sampleAddr = .ok (some "vitalik.eth")
    ∧ (resolveAddress ⟨ethReverseName, viemNull, ensNormalize, idGetAddress⟩ sampleAddr).1
      = ⟨some sampleAddr, some "vitalik.eth", "vitalik.eth", none, none⟩ := by decide

/-- C5 amended: if the reverse lookup fulfills with a nonempty name n and
the avatar lookup for n fulfills with value v, then displayName = n and
avatar = v (possibly null, not necessarily any URI derived from n); if the
reverse lookup fulfills with null, displayName is the elided form of the
checksummed address (0x plus first three hex chars, ellipsis, last four)
and avatar is null. -/
theorem c5_reverse_name_display (env : Env) (a : String) :
    (env.provider.lookupAddress (env.getAddress a) = .ok none →
      (resolveAddress env a).1.displayName = elideAddress (env.getAddress a)
      ∧ (resolveAddress env a).1.avatar = none)
    ∧ (∀ n nn av, n ≠ "" →
        env.provider.lookupAddress (env.getAddress a) = .ok (some n) →
        env.normalize n = .ok nn →
        env.provider.getAvatar n = .ok av →
        (resolveAddress env a).1.displayName = n
        ∧ (resolveAddress env a).1.avatar = av) := by
  constructor
  · intro h
    rw [resolveAddress_fst]
    simp [h]
  · intro n nn av hn h hnorm hav
    constructor <;>
      simp only [resolveAddress_fst, getEnsAvatar_fst, h, hn, hnorm, if_neg hn] <;>
      simp [hav]

/-- Witness for C5 amended: both halves applied at concrete
environments. -/
theorem c5_reverse_name_display_witness :
    ((resolveAddress envNull sampleAddr).1.displayName
        = elideAddress (envNull.getAddress sampleAddr)
      ∧ (resolveAddress envNull sampleAddr).1.avatar = none)
    ∧ ((resolveAddress ⟨ethReverseName, viemNull, ensNormalize, idGetAddress⟩ sampleAddr).1.displayName
        = "vitalik.eth"
      ∧ (resolveAddress ⟨ethReverseName, viemNull, ensNormalize, idGetAddress⟩ sampleAddr).1.avatar
        = none) :=
  ⟨(c5_reverse_name_display envNull sampleAddr).1 (by decide),
   (c5_reverse_name_display ⟨ethReverseName, viemNull, ensNormalize, idGetAddress⟩ sampleAddr).2
     "vitalik.eth" "vitalik.eth" none (by decide) (by decide) (by decide) (by decide)⟩

/-- C7 counterexample: a result can carry an error field whose message is
the empty string; JavaScript truthiness then sends it as HTTP 200 with the
cache header, so the 500-iff-carries-an-error contract fails as stated. -/
theorem c7_counterexample :
    handler envEmptyErr ⟨some (.inl sampleAddr), "/api/ens/resolve/" ++ sampleAddr⟩
      = .ok (.json 200 [("CDN-Cache-Control", cdnCacheControl)]
          ⟨some sampleAddr, none, elideAddress sampleAddr, none, some ""⟩,
          ["Inconsistent results for getEnsName"])
    ∧ (⟨some sampleAddr, none, elideAddress sampleAddr, none, some ""⟩
        : ResponseData).error ≠ none := by decide

/-- C7 amended: for every canonical (already lower-case) input, the
handler responds HTTP 500 with the full JSON result exactly when the
result carries a non-empty error string (JavaScript truthiness);
otherwise — including when an error field is present but empty — it
responds HTTP 200 with the JSON result and the cache header
CDN-Cache-Control: s-maxage=86400, stale-while-revalidate. -/
theorem c7_status_contract (env : Env) (s u : String)
    (hs : toLowerCase s = s) :
    (handler env ⟨some (.inl s), u⟩).map Prod.fst =
      (fun d => .ok (if errorTruthy d then Response.json 500 [] d
           else Response.json 200 [("CDN-Cache-Control", cdnCacheControl)] d))
      ((if isAddress s then resolveAddress env s else resolveName env s).1) := by
  rw [handler_map_fst]
  simp only [firstParam]
  rw [if_neg (by simp [hs]), hs]

/-- String append is associative. -/
theorem string_append_assoc (a b c : String) : (a ++ b) ++ c = a ++ (b ++ c) :=
  String.toList_inj.mp (by simp only [toList_append, List.append_assoc])

/-- Lower-casing never introduces a colon. -/
theorem toLower_ne_colon (c : Char) (h : c ≠ ':') : Char.toLower c ≠ ':' := by
  unfold Char.toLower
  by_cases hc : c.toNat ≥ 65 ∧ c.toNat ≤ 90
  · rw [if_pos hc]
    intro heq
    have hv : (Char.ofNat (c.toNat + 32)).toNat = c.toNat + 32 :=
      char_toNat_ofNat_of_valid _ (Or.inl (by omega))
    rw [heq] at hv
    have h58 : (':' : Char).toNat = 58 := rfl
    omega
  · rw [if_neg hc]
    exact h

/-- A string without a colon stays colon-free under the modelled
toLowerCase. -/
theorem toLowerCase_no_colon (s : String) (h : ∀ c ∈ s.toList, c ≠ ':') :
    ∀ c ∈ (toLowerCase s).toList, c ≠ ':' := by
  intro c hc
  unfold toLowerCase at hc
  rw [List.toList_asString] at hc
  obtain ⟨c0, hc0, rfl⟩ := List.mem_map.1 hc
  exact toLower_ne_colon c0 (h c0 hc0)

/-- A string without a colon is never scheme-like. -/
theorem parseScheme_eq_none_of_no_colon (s : String)
    (h : ∀ c ∈ s.toList, c ≠ ':') : parseScheme s = none := by
  unfold parseScheme
  cases hl : s.toList with
  | nil => rfl
  | cons c rest =>
    simp only
    by_cases ha : c.isAlpha
    · rw [if_pos ha]
      cases hd : rest.dropWhile schemeChar with
      | nil => rfl
      | cons x xs =>
        have hx : x ∈ rest :=
          (List.dropWhile_suffix schemeChar).subset (hd ▸ List.mem_cons_self x xs)
        have hxc : x ≠ ':' := h x (hl ▸ List.mem_cons_of_mem c hx)
        split
        · simp_all
        · rfl
    · rw [if_neg ha]

/-- C1 counterexample: with the original URL carrying a query string, the
redirect target drops it: relative resolution of the lower-cased segment
against the request URL replaces the last path segment and clears the
query and fragment, so the Location is not the query-preserving path the
claim requires. -/
theorem c1_counterexample :
    handler envNull ⟨some (.inl "0xABC"), "/api/ens/resolve/0xABC?foo=bar"⟩
      = .ok (.redirect 307 "/api/ens/resolve/0xabc", [])
    ∧ "/api/ens/resolve/0xabc" ≠ "/api/ens/resolve/0xabc?foo=bar" := by decide

/-- Relative resolution skeleton of the resolve helper: on a URL made of a
path whose last segment has no reserved characters, followed by an
optional query or fragment suffix, the result for a non-scheme-like new
segment is the directory of the path followed by the new segment — the
query and fragment are dropped. -/
theorem resolve_skeleton (A S R : List Char) (t : String)
    (ht : parseScheme t = none)
    (hA : ∀ c ∈ A, c ≠ '?' ∧ c ≠ '#')
    (hS : ∀ c ∈ S, c ≠ '?' ∧ c ≠ '#' ∧ c ≠ '/')
    (hR : R.head? = some '?' ∨ R.head? = some '#' ∨ R = []) :
    resolve (((A ++ ('/' :: S)) ++ R).asString) t = (A ++ ['/']).asString ++ t := by
  have hmem1 : ∀ a ∈ A ++ ('/' :: S), (a != '#') = true := by
    intro a ha
    rcases List.mem_append.1 ha with h | h
    · simpa [bne_iff_ne] using (hA a h).2
    · rcases List.mem_cons.1 h with rfl | h
      · decide
      · simpa [bne_iff_ne] using (hS a h).2.1
  have hmem2 : ∀ a ∈ A ++ ('/' :: S), (a != '?') = true := by
    intro a ha
    rcases List.mem_append.1 ha with h | h
    · simpa [bne_iff_ne] using (hA a h).1
    · rcases List.mem_cons.1 h with rfl | h
      · decide
      · simpa [bne_iff_ne] using (hS a h).1
  have htail : ((R.takeWhile (fun a => a != '#')).takeWhile (fun a => a != '?')) = [] := by
    rcases hR with h | h | h
    · cases R with
      | nil => simp at h
      | cons x xs =>
        simp only [List.head?_cons, Option.some.injEq] at h
        subst h
        simp [List.takeWhile_cons]
    · cases R with
      | nil => simp at h
      | cons x xs =>
        simp only [List.head?_cons, Option.some.injEq] at h
        subst h
        simp [List.takeWhile_cons]
    · subst h
      simp
  have hdrop : (((A ++ ('/' :: S)).reverse).dropWhile (fun a => a != '/')) = '/' :: A.reverse := by
    rw [List.reverse_append, List.reverse_cons, List.append_assoc]
    rw [List.dropWhile_append_of_pos
      (by intro a ha; simpa [bne_iff_ne] using (hS a (List.mem_reverse.1 ha)).2.2)]
    simp [List.dropWhile_cons]
  unfold resolve beforeChar dirname
  rw [ht]
  simp only [List.toList_asString]
  rw [List.takeWhile_append_of_pos hmem1, List.takeWhile_append_of_pos hmem2, htail,
    List.append_nil, hdrop, List.reverse_cons, List.reverse_reverse]

/-- C1 amended: for every input segment without a colon (a colon-bearing
segment would make its lower-cased form parse as an absolute URL of its
own scheme) differing from its lower-cased form, the handler responds 307
to the same path with the last segment replaced by its lower-cased form;
any query string or fragment of the original URL is dropped from the
redirect target, not preserved. -/
theorem c1_redirect_lowercases_segment_drops_query
    (env : Env) (dir seg rest : String)
    (hdir : ∀ c ∈ dir.toList, c ≠ '?' ∧ c ≠ '#')
    (hseg : ∀ c ∈ seg.toList, c ≠ '?' ∧ c ≠ '#' ∧ c ≠ '/' ∧ c ≠ ':')
    (hrest : rest.toList.head? = some '?' ∨ rest.toList.head? = some '#'
      ∨ rest.toList = [])
    (hlower : toLowerCase seg ≠ seg) :
    handler env ⟨some (.inl seg), dir ++ "/" ++ seg ++ rest⟩
      = .ok (.redirect 307 (dir ++ "/" ++ toLowerCase seg), []) := by
  have hurl : dir ++ "/" ++ seg ++ rest
      = ((dir.toList ++ ('/' :: seg.toList)) ++ rest.toList).asString := by
    apply String.toList_inj.mp
    have hslash : ("/" : String).toList = ['/'] := rfl
    simp only [toList_append, List.toList_asString, hslash, List.append_assoc,
      List.cons_append, List.nil_append]
  have hns : parseScheme (toLowerCase seg) = none :=
    parseScheme_eq_none_of_no_colon _
      (toLowerCase_no_colon seg (fun c hc => (hseg c hc).2.2.2))
  have hres : resolve (dir ++ "/" ++ seg ++ rest) (toLowerCase seg)
      = dir ++ "/" ++ toLowerCase seg := by
    rw [hurl, resolve_skeleton dir.toList seg.toList rest.toList (toLowerCase seg) hns hdir
      (fun c hc => ⟨(hseg c hc).1, (hseg c hc).2.1, (hseg c hc).2.2.1⟩) hrest]
    have hpre : (dir.toList ++ ['/']).asString = dir ++ "/" := by
      apply String.toList_inj.mp
      have hslash : ("/" : String).toList = ['/'] := rfl
      simp only [toList_append, List.toList_asString, hslash]
    rw [hpre, string_append_assoc]
  unfold handler firstParam
  simp only
  rw [if_pos (Ne.symm hlower), hres]

/-- Witness for C1 amended at a concrete mixed-case segment with a query
string. -/
theorem c1_redirect_lowercases_segment_drops_query_witness :
    handler envNull ⟨some (.inl "0xABC"), "/api/ens/resolve" ++ "/" ++ "0xABC" ++ "?foo=bar"⟩
      = .ok (.redirect 307 ("/api/ens/resolve" ++ "/" ++ toLowerCase "0xABC"), []) :=
  c1_redirect_lowercases_segment_drops_query envNull "/api/ens/resolve" "0xABC" "?foo=bar"
    (by decide) (by decide) (by decide) (by decide)

/-- Witness for C7 amended at a concrete canonical input. -/
theorem c7_status_contract_witness :
    (handler envNull ⟨some (.inl sampleAddr), "/api/ens/resolve/" ++ sampleAddr⟩).map Prod.fst =
      (fun d => .ok (if errorTruthy d then Response.json 500 [] d
           else Response.json 200 [("CDN-Cache-Control", cdnCacheControl)] d))
      ((if isAddress sampleAddr then resolveAddress envNull sampleAddr
        else resolveName envNull sampleAddr).1) :=
  c7_status_contract envNull sampleAddr ("/api/ens/resolve/" ++ sampleAddr) (by decide)

end EnsIdeas
